import Mathlib

/-!
Verification development for the SATS serialization core
(`crates/sats/src/ser/impls.rs`): the untyped (`Serialize`) and
schema-paired (`ValueWithType<_, _>`) serialization algorithms.

The visitor/builder protocol (`Serializer`, `SerializeArray`, ...) is not
under `src/`; following the spec (section 4.1) we model an encoder run as the
tree of protocol calls the core makes: each compound starter
(`serialize_array(len)`, ...) together with its element/entry calls and
`end()` becomes one node carrying the declared `len` and the list of
elements actually passed before `end()`.  `serialize_variant(tag, name, v)`
becomes a node carrying the tag, the optional name, and the emission tree
of `v`.  Floating point payloads are carried as their raw bit patterns
(`Nat`); the core never computes with them, it only forwards them.
-/

/-- One emission tree: the sequence of Serializer/builder calls produced by
one `serialize` call, as a tree.  Compound nodes record the `len` declared
to the builder separately from the elements actually fed to it, so that the
builder call-count contract is expressible. -/
inductive Ser where
  | bool (b : Bool)
  | i8 (n : Int)
  | u8 (n : Nat)
  | i16 (n : Int)
  | u16 (n : Nat)
  | i32 (n : Int)
  | u32 (n : Nat)
  | i64 (n : Int)
  | u64 (n : Nat)
  | i128 (n : Int)
  | u128 (n : Nat)
  | f32 (bits : Nat)
  | f64 (bits : Nat)
  | str (s : String)
  | bytes (bs : List Nat)
  | array (len : Nat) (elems : List Ser)
  | map (len : Nat) (entries : List (Ser × Ser))
  | seqProduct (len : Nat) (elems : List Ser)
  | namedProduct (len : Nat) (elems : List (Option String × Ser))
  | variant (tag : Nat) (name : Option String) (payload : Ser)

/-- Outcome of schema-paired serialization that did not return normally:
`panicked` models the `panic!("mismatched value and schema")` calls (and
out-of-bounds indexing panics), `spin` models the `Ref`-resolution loop
running forever. -/
inductive SErr where
  | panicked
  | spin
deriving DecidableEq

/-- Result of a schema-paired serialization call. -/
abbrev SRes := Except SErr Ser

mutual

/-- Modelled from the spec (section 3, `AlgebraicValue` and friends; the
value-model source files are not under `src/`): the mutually recursive
runtime value representation.  Scalar payloads are `Nat`/`Int`/`String`;
`F32`/`F64` wrappers are carried as raw bit patterns (`Nat`). -/
inductive AlgebraicValue where
  | Sum (sum : SumValue)
  | Product (prod : ProductValue)
  | Builtin (b : BuiltinValue)

inductive SumValue where
  | mk (tag : Nat) (value : AlgebraicValue)

inductive ProductValue where
  | mk (elements : List AlgebraicValue)

inductive BuiltinValue where
  | Bool (v : Bool)
  | I8 (v : Int)
  | U8 (v : Nat)
  | I16 (v : Int)
  | U16 (v : Nat)
  | I32 (v : Int)
  | U32 (v : Nat)
  | I64 (v : Int)
  | U64 (v : Nat)
  | I128 (v : Int)
  | U128 (v : Nat)
  | F32 (v : Nat)
  | F64 (v : Nat)
  | String (v : String)
  | Array (val : ArrayValue)
  | Map (val : MapValue)

inductive ArrayValue where
  | Sum (v : List SumValue)
  | Product (v : List ProductValue)
  | Bool (v : List Bool)
  | I8 (v : List Int)
  | U8 (v : List Nat)
  | I16 (v : List Int)
  | U16 (v : List Nat)
  | I32 (v : List Int)
  | U32 (v : List Nat)
  | I64 (v : List Int)
  | U64 (v : List Nat)
  | I128 (v : List Int)
  | U128 (v : List Nat)
  | F32 (v : List Nat)
  | F64 (v : List Nat)
  | String (v : List String)
  | Array (v : List ArrayValue)
  | Map (v : List MapValue)

inductive MapValue where
  | mk (entries : List (AlgebraicValue × AlgebraicValue))

end

mutual

/-- Modelled from the spec (section 3, `AlgebraicType` and friends; the
type-model source files are not under `src/`): the schema representation.
`Ref` holds an index into a `Typespace`. -/
inductive AlgebraicType where
  | Sum (s : SumType)
  | Product (p : ProductType)
  | Builtin (b : BuiltinType)
  | Ref (r : Nat)

inductive SumType where
  | mk (variants : List SumTypeVariant)

inductive SumTypeVariant where
  | mk (name : Option String) (algebraic_type : AlgebraicType)

inductive ProductType where
  | mk (elements : List ProductTypeElement)

inductive ProductTypeElement where
  | mk (name : Option String) (algebraic_type : AlgebraicType)

inductive BuiltinType where
  | Bool
  | I8
  | U8
  | I16
  | U16
  | I32
  | U32
  | I64
  | U64
  | I128
  | U128
  | F32
  | F64
  | String
  | Array (a : ArrayType)
  | Map (m : MapType)

inductive ArrayType where
  | mk (elem_ty : AlgebraicType)

inductive MapType where
  | mk (key_ty : AlgebraicType) (ty : AlgebraicType)

end

/-- Modelled from the spec (section 3, `Typespace`; the source file is not
under `src/`): the indexed arena of types that `Ref` indices resolve
against. -/
abbrev Typespace := List AlgebraicType

def SumValue.tag : SumValue → Nat
  | .mk t _ => t

def SumValue.value : SumValue → AlgebraicValue
  | .mk _ v => v

def ProductValue.elements : ProductValue → List AlgebraicValue
  | .mk es => es

def MapValue.entries : MapValue → List (AlgebraicValue × AlgebraicValue)
  | .mk es => es

def SumType.variants : SumType → List SumTypeVariant
  | .mk vs => vs

def SumTypeVariant.name : SumTypeVariant → Option String
  | .mk n _ => n

def SumTypeVariant.algebraic_type : SumTypeVariant → AlgebraicType
  | .mk _ t => t

def ProductType.elements : ProductType → List ProductTypeElement
  | .mk es => es

def ProductTypeElement.name : ProductTypeElement → Option String
  | .mk n _ => n

def ProductTypeElement.algebraic_type : ProductTypeElement → AlgebraicType
  | .mk _ t => t

def ArrayType.elem_ty : ArrayType → AlgebraicType
  | .mk t => t

def MapType.key_ty : MapType → AlgebraicType
  | .mk k _ => k

def MapType.ty : MapType → AlgebraicType
  | .mk _ t => t

/-- Embeds `ArrayValue::is_empty` (the underlying homogeneous vector is empty). -/
def ArrayValue.is_empty (a : ArrayValue) := match a with
  | .Sum v => v.isEmpty
  | .Product v => v.isEmpty
  | .Bool v => v.isEmpty
  | .I8 v => v.isEmpty
  | .U8 v => v.isEmpty
  | .I16 v => v.isEmpty
  | .U16 v => v.isEmpty
  | .I32 v => v.isEmpty
  | .U32 v => v.isEmpty
  | .I64 v => v.isEmpty
  | .U64 v => v.isEmpty
  | .I128 v => v.isEmpty
  | .U128 v => v.isEmpty
  | .F32 v => v.isEmpty
  | .F64 v => v.isEmpty
  | .String v => v.isEmpty
  | .Array v => v.isEmpty
  | .Map v => v.isEmpty

/-- The default `Serialize::__serialize_array` body (from the `Serialize`
trait, spec section 4.1/4.2): `serialize_array(len)` followed by one
`serialize_element` per element, then `end()`. -/
def serArrayDefault (f : α → Ser) (l : List α) : Ser :=
  .array l.length (l.map f)

mutual

/-- Embeds `impl Serialize for AlgebraicValue` (impls.rs line 92): transparent
forwarding to the active variant's serialization. -/
def serializeAV : AlgebraicValue → Ser
  | .Sum s => serializeSV s
  | .Product p => serializePV p
  | .Builtin b => serializeBV b

/-- Embeds `impl Serialize for SumValue` (impls.rs line 123):
`serialize_variant(tag, None, value)`. -/
def serializeSV : SumValue → Ser
  | .mk tag value => .variant tag none (serializeAV value)

/-- Embeds `impl Serialize for ProductValue` (impls.rs line 116):
`serialize_seq_product(len)` then the elements positionally, unnamed. -/
def serializePV : ProductValue → Ser
  | .mk elements => .seqProduct elements.length (serializeAVList elements)

def serializeAVList : List AlgebraicValue → List Ser
  | [] => []
  | v :: vs => serializeAV v :: serializeAVList vs

/-- Embeds `impl Serialize for BuiltinValue` (impls.rs line 97): scalars call the
matching scalar method; `Array`/`Map` forward transparently. -/
def serializeBV : BuiltinValue → Ser
  | .Bool v => .bool v
  | .I8 v => .i8 v
  | .U8 v => .u8 v
  | .I16 v => .i16 v
  | .U16 v => .u16 v
  | .I32 v => .i32 v
  | .U32 v => .u32 v
  | .I64 v => .i64 v
  | .U64 v => .u64 v
  | .I128 v => .i128 v
  | .U128 v => .u128 v
  | .F32 v => .f32 v
  | .F64 v => .f64 v
  | .String v => .str v
  | .Array val => serializeArr val
  | .Map val => serializeMapV val

/-- Embeds `impl Serialize for ArrayValue` (impls.rs line 124): each variant
forwards to the untyped serialization of its homogeneous vector, i.e. to
the element type's `__serialize_array`: the default per-element path for
every element type except `u8`, whose override is `serialize_bytes`. -/
def serializeArr : ArrayValue → Ser
  | .Sum v => .array v.length (serializeSVList v)
  | .Product v => .array v.length (serializePVList v)
  | .Bool v => .array v.length (v.map Ser.bool)
  | .I8 v => .array v.length (v.map Ser.i8)
  | .U8 v => .bytes v
  | .I16 v => .array v.length (v.map Ser.i16)
  | .U16 v => .array v.length (v.map Ser.u16)
  | .I32 v => .array v.length (v.map Ser.i32)
  | .U32 v => .array v.length (v.map Ser.u32)
  | .I64 v => .array v.length (v.map Ser.i64)
  | .U64 v => .array v.length (v.map Ser.u64)
  | .I128 v => .array v.length (v.map Ser.i128)
  | .U128 v => .array v.length (v.map Ser.u128)
  | .F32 v => .array v.length (v.map Ser.f32)
  | .F64 v => .array v.length (v.map Ser.f64)
  | .String v => .array v.length (v.map Ser.str)
  | .Array v => .array v.length (serializeArrList v)
  | .Map v => .array v.length (serializeMapVList v)

def serializeSVList : List SumValue → List Ser
  | [] => []
  | v :: vs => serializeSV v :: serializeSVList vs

def serializePVList : List ProductValue → List Ser
  | [] => []
  | v :: vs => serializePV v :: serializePVList vs

def serializeArrList : List ArrayValue → List Ser
  | [] => []
  | v :: vs => serializeArr v :: serializeArrList vs

def serializeMapVList : List MapValue → List Ser
  | [] => []
  | v :: vs => serializeMapV v :: serializeMapVList vs

/-- Embeds `impl Serialize for BTreeMap<K, V>` (impls.rs line 85) at
`K = V = AlgebraicValue`, i.e. untyped `MapValue` serialization:
`serialize_map(len)` then one entry per element in iteration order. -/
def serializeMapV : MapValue → Ser
  | .mk entries => .map entries.length (serializeEntryList entries)

def serializeEntryList : List (AlgebraicValue × AlgebraicValue) → List (Ser × Ser)
  | [] => []
  | (k, v) :: rest => (serializeAV k, serializeAV v) :: serializeEntryList rest

end

/-- The `Serialize` trait (spec section 4.2; trait declaration not under
`src/`): `serialize` plus the array hook `__serialize_array`, whose default
body is `serialize_array(len)` followed by per-element calls. -/
class Serialize (α : Type) where
  serialize : α → Ser
  __serialize_array : List α → Ser := serArrayDefault serialize

/-- Embeds `impl Serialize for ()` (impls.rs line 47): an empty sequence-product. -/
instance : Serialize Unit where
  serialize _ := .seqProduct 0 []

/-- The Rust `u8` scalar (kept as a distinct type so that its `Serialize`
impl, with the overridden array hook, can be stated). -/
structure U8 where
  val : Nat

/-- Embeds `impl Serialize for u8` (impls.rs line 56): scalar via `serialize_u8`;
`__serialize_array` overridden to the bulk `serialize_bytes` fast path. -/
instance : Serialize U8 where
  serialize b := .u8 b.val
  __serialize_array l := .bytes (l.map U8.val)

instance : Serialize Bool where
  serialize b := .bool b

instance : Serialize String where
  serialize s := .str s

/-- Embeds `impl Serialize for Option<T>` (impls.rs line 77): a two-variant sum;
`None`'s payload is `&()`. -/
instance [Serialize α] : Serialize (Option α) where
  serialize
    | some v => .variant 0 (some "some") (Serialize.serialize v)
    | none => .variant 1 (some "none") (Serialize.serialize ())

/-- Embeds `impl Serialize for [T]` (impls.rs line 72): delegates to
`T::__serialize_array`. -/
def serializeSlice [Serialize α] (l : List α) : Ser :=
  Serialize.__serialize_array l

/-- Embeds `impl Serialize for Vec<T>` (impls.rs line 71): derefs to the slice
impl. -/
def serializeVec [Serialize α] (l : List α) : Ser :=
  serializeSlice l

/-- Embeds `impl Serialize for [T; N]` (impls.rs line 73): also delegates to
`T::__serialize_array` (the fixed length is carried by the list here). -/
def serializeFixedArr [Serialize α] (l : List α) : Ser :=
  serializeSlice l

/-- Outcome of the `Ref`-resolution loop at the head of
`ValueWithType<'_, AlgebraicValue>::serialize` (impls.rs lines 145-157):
either a non-`Ref` type is found, or an index was out of bounds (panic of
`typespace()[r]`), or the loop never leaves the `Ref` arm. -/
inductive Resolved where
  | found (ty : AlgebraicType)
  | oob
  | spin

/-- The `loop`/`continue` `Ref`-resolution from impls.rs lines 145-157,
made total with explicit fuel.  The loop is deterministic over a finite
typespace, so if it reaches a non-`Ref` type at all it does so after at
most `ts.length` in-bounds `Ref` hops (the hopped-to entries' indices are
pairwise distinct on a terminating run); callers pass `ts.length + 1` so
that `spin` is returned exactly when the source loop runs forever. -/
def resolveRef (ts : Typespace) (fuel : Nat) (ty : AlgebraicType) : Resolved :=
  match ty with
  | .Ref r =>
    match fuel with
    | 0 => .spin
    | fuel + 1 =>
      match ts.get? r with
      | some t => resolveRef ts fuel t
      | none => .oob
  | t => .found t

mutual

/-- Embeds `ValueWithType<'_, AlgebraicValue>::serialize` (impls.rs line 144):
resolve `Ref`s, then dispatch on the value/type pair; a pairing other than
Sum/Sum, Product/Product, Builtin/Builtin panics. -/
def tserAV (ts : Typespace) (ty : AlgebraicType) (v : AlgebraicValue) : SRes :=
  match resolveRef ts (ts.length + 1) ty with
  | .spin => .error .spin
  | .oob => .error .panicked
  | .found rty =>
    match v, rty with
    | .Sum sv, .Sum sty => tserSV ts sty sv
    | .Product pv, .Product pty => tserPV ts pty pv
    | .Builtin bv, .Builtin bty => tserBV ts bty bv
    | _, _ => .error .panicked
termination_by sizeOf v

/-- Embeds `ValueWithType<'_, SumValue>::serialize` (impls.rs line 189): index the
variant list by the value's tag (panics when out of bounds), then
`serialize_variant(tag, variant_name, payload)`. -/
def tserSV (ts : Typespace) (sty : SumType) : SumValue → SRes
  | .mk tag value =>
    match sty.variants.get? tag with
    | none => .error .panicked
    | some var_ty =>
      match tserAV ts var_ty.algebraic_type value with
      | .error e => .error e
      | .ok payload => .ok (.variant tag var_ty.name payload)
termination_by sv => sizeOf sv

/-- Embeds `ValueWithType<'_, ProductValue>::serialize` (impls.rs line 194):
`assert_eq!` on the element counts (panics when unequal), then
`serialize_named_product(n)` with the zipped value/declared-element
pairs. -/
def tserPV (ts : Typespace) (pty : ProductType) : ProductValue → SRes
  | .mk elements =>
    if elements.length = pty.elements.length then
      match tserPVFields ts elements pty.elements with
      | .error e => .error e
      | .ok fields => .ok (.namedProduct elements.length fields)
    else .error .panicked
termination_by pv => sizeOf pv

/-- The element loop of `ValueWithType<'_, ProductValue>::serialize`
(impls.rs line 198): `val.iter().zip(&self.ty().elements)`, emitting each
element under its declared name. -/
def tserPVFields (ts : Typespace) :
    List AlgebraicValue → List ProductTypeElement →
    Except SErr (List (Option String × Ser))
  | [], _ => .ok []
  | _ :: _, [] => .ok []
  | v :: vs, el :: els =>
    match tserAV ts el.algebraic_type v with
    | .error e => .error e
    | .ok s =>
      match tserPVFields ts vs els with
      | .error e => .error e
      | .ok rest => .ok ((el.name, s) :: rest)
termination_by vals _ => sizeOf vals

/-- Embeds `ValueWithType<'_, BuiltinValue>::serialize` (impls.rs line 159):
scalar kinds must match exactly; `Array`/`Map` recurse with the declared
element/entry types; anything else panics. -/
def tserBV (ts : Typespace) (bty : BuiltinType) (bv : BuiltinValue) : SRes :=
  match bv, bty with
  | .Bool v, .Bool => .ok (.bool v)
  | .I8 v, .I8 => .ok (.i8 v)
  | .U8 v, .U8 => .ok (.u8 v)
  | .I16 v, .I16 => .ok (.i16 v)
  | .U16 v, .U16 => .ok (.u16 v)
  | .I32 v, .I32 => .ok (.i32 v)
  | .U32 v, .U32 => .ok (.u32 v)
  | .I64 v, .I64 => .ok (.i64 v)
  | .U64 v, .U64 => .ok (.u64 v)
  | .I128 v, .I128 => .ok (.i128 v)
  | .U128 v, .U128 => .ok (.u128 v)
  | .F32 v, .F32 => .ok (.f32 v)
  | .F64 v, .F64 => .ok (.f64 v)
  | .String s, .String => .ok (.str s)
  | .Array val, .Array aty => tserArr ts aty val
  | .Map val, .Map mty => tserMap ts mty val
  | _, _ => .error .panicked
termination_by sizeOf bv

/-- Embeds `ValueWithType<'_, ArrayValue>::serialize` (impls.rs line 203): match
the concrete element kind against the declared `elem_ty`.  Matching
Sum/Product/Array/Map kinds go through the `ValueWithType<'_, Vec<T>>`
impl (impls.rs line 178: `serialize_array(len)` then the typed elements,
inlined here per element kind); matching scalar kinds forward to the
untyped vector serialization (`v.serialize(ser)`), so `U8` takes the
`serialize_bytes` bulk path; after all matching arms, an empty value of
any remaining kind emits `serialize_array(0)?.end()`, and a non-empty
mismatch panics. -/
def tserArr (ts : Typespace) (aty : ArrayType) (av : ArrayValue) : SRes :=
  match av, aty.elem_ty with
  | .Sum v, .Sum sty =>
    match tserVecSumElems ts sty v with
    | .error e => .error e
    | .ok es => .ok (.array v.length es)
  | .Product v, .Product pty =>
    match tserVecProdElems ts pty v with
    | .error e => .error e
    | .ok es => .ok (.array v.length es)
  | .Bool v, .Builtin .Bool => .ok (serArrayDefault Ser.bool v)
  | .I8 v, .Builtin .I8 => .ok (serArrayDefault Ser.i8 v)
  | .U8 v, .Builtin .U8 => .ok (.bytes v)
  | .I16 v, .Builtin .I16 => .ok (serArrayDefault Ser.i16 v)
  | .U16 v, .Builtin .U16 => .ok (serArrayDefault Ser.u16 v)
  | .I32 v, .Builtin .I32 => .ok (serArrayDefault Ser.i32 v)
  | .U32 v, .Builtin .U32 => .ok (serArrayDefault Ser.u32 v)
  | .I64 v, .Builtin .I64 => .ok (serArrayDefault Ser.i64 v)
  | .U64 v, .Builtin .U64 => .ok (serArrayDefault Ser.u64 v)
  | .I128 v, .Builtin .I128 => .ok (serArrayDefault Ser.i128 v)
  | .U128 v, .Builtin .U128 => .ok (serArrayDefault Ser.u128 v)
  | .F32 v, .Builtin .F32 => .ok (serArrayDefault Ser.f32 v)
  | .F64 v, .Builtin .F64 => .ok (serArrayDefault Ser.f64 v)
  | .String v, .Builtin .String => .ok (serArrayDefault Ser.str v)
  | .Array v, .Builtin (.Array ty) =>
    match tserVecArrElems ts ty v with
    | .error e => .error e
    | .ok es => .ok (.array v.length es)
  | .Map v, .Builtin (.Map m) =>
    match tserVecMapElems ts m v with
    | .error e => .error e
    | .ok es => .ok (.array v.length es)
  | v, _ => if v.is_empty then .ok (.array 0 []) else .error .panicked
termination_by sizeOf av

def tserVecSumElems (ts : Typespace) (sty : SumType) :
    List SumValue → Except SErr (List Ser)
  | [] => .ok []
  | v :: vs =>
    match tserSV ts sty v with
    | .error e => .error e
    | .ok s =>
      match tserVecSumElems ts sty vs with
      | .error e => .error e
      | .ok es => .ok (s :: es)
termination_by l => sizeOf l

def tserVecProdElems (ts : Typespace) (pty : ProductType) :
    List ProductValue → Except SErr (List Ser)
  | [] => .ok []
  | v :: vs =>
    match tserPV ts pty v with
    | .error e => .error e
    | .ok s =>
      match tserVecProdElems ts pty vs with
      | .error e => .error e
      | .ok es => .ok (s :: es)
termination_by l => sizeOf l

def tserVecArrElems (ts : Typespace) (aty : ArrayType) :
    List ArrayValue → Except SErr (List Ser)
  | [] => .ok []
  | v :: vs =>
    match tserArr ts aty v with
    | .error e => .error e
    | .ok s =>
      match tserVecArrElems ts aty vs with
      | .error e => .error e
      | .ok es => .ok (s :: es)
termination_by l => sizeOf l

def tserVecMapElems (ts : Typespace) (mty : MapType) :
    List MapValue → Except SErr (List Ser)
  | [] => .ok []
  | v :: vs =>
    match tserMap ts mty v with
    | .error e => .error e
    | .ok s =>
      match tserVecMapElems ts mty vs with
      | .error e => .error e
      | .ok es => .ok (s :: es)
termination_by l => sizeOf l

/-- Embeds `ValueWithType<'_, MapValue>::serialize` (impls.rs line 227):
`serialize_map(len)` then one entry per element in iteration order, keys
against `key_ty` and values against `ty`. -/
def tserMap (ts : Typespace) (mty : MapType) : MapValue → SRes
  | .mk entries =>
    match tserMapEntries ts mty.key_ty mty.ty entries with
    | .error e => .error e
    | .ok es => .ok (.map entries.length es)
termination_by mv => sizeOf mv

def tserMapEntries (ts : Typespace) (kty vty : AlgebraicType) :
    List (AlgebraicValue × AlgebraicValue) →
    Except SErr (List (Ser × Ser))
  | [] => .ok []
  | (k, v) :: rest =>
    match tserAV ts kty k with
    | .error e => .error e
    | .ok ks =>
      match tserAV ts vty v with
      | .error e => .error e
      | .ok vs =>
        match tserMapEntries ts kty vty rest with
        | .error e => .error e
        | .ok es => .ok ((ks, vs) :: es)
termination_by l => sizeOf l

end

mutual

/-- The builder call-count contract (spec section 4.1): every compound
node's declared `len` equals the number of element/entry calls made before
`end()`, recursively. -/
def Ser.lenOk : Ser → Bool
  | .array n l => n == l.length && Ser.lenOkList l
  | .map n l => n == l.length && Ser.lenOkPairs l
  | .seqProduct n l => n == l.length && Ser.lenOkList l
  | .namedProduct n l => n == l.length && Ser.lenOkNamed l
  | .variant _ _ p => p.lenOk
  | _ => true
termination_by s => sizeOf s

def Ser.lenOkList : List Ser → Bool
  | [] => true
  | s :: l => s.lenOk && Ser.lenOkList l
termination_by l => sizeOf l

def Ser.lenOkPairs : List (Ser × Ser) → Bool
  | [] => true
  | (k, v) :: l => k.lenOk && v.lenOk && Ser.lenOkPairs l
termination_by l => sizeOf l

def Ser.lenOkNamed : List (Option String × Ser) → Bool
  | [] => true
  | (_, s) :: l => s.lenOk && Ser.lenOkNamed l
termination_by l => sizeOf l

end

/-- Number of elements/entries emitted by the outermost node of an
emission tree (bulk `serialize_bytes` counts its bytes). -/
def Ser.emittedCount : Ser → Nat
  | .array _ l => l.length
  | .map _ l => l.length
  | .seqProduct _ l => l.length
  | .namedProduct _ l => l.length
  | .bytes bs => bs.length
  | _ => 0

/-- Whether an `ArrayValue`'s concrete element kind matches a declared
element type's kind, following exactly the typed arms of
`ValueWithType<'_, ArrayValue>::serialize` (impls.rs lines 204-223). -/
def arrayKindMatches (av : ArrayValue) (ty : AlgebraicType) : Bool :=
  match av, ty with
  | .Sum _, .Sum _ => true
  | .Product _, .Product _ => true
  | .Bool _, .Builtin .Bool => true
  | .I8 _, .Builtin .I8 => true
  | .U8 _, .Builtin .U8 => true
  | .I16 _, .Builtin .I16 => true
  | .U16 _, .Builtin .U16 => true
  | .I32 _, .Builtin .I32 => true
  | .U32 _, .Builtin .U32 => true
  | .I64 _, .Builtin .I64 => true
  | .U64 _, .Builtin .U64 => true
  | .I128 _, .Builtin .I128 => true
  | .U128 _, .Builtin .U128 => true
  | .F32 _, .Builtin .F32 => true
  | .F64 _, .Builtin .F64 => true
  | .String _, .Builtin .String => true
  | .Array _, .Builtin (.Array _) => true
  | .Map _, .Builtin (.Map _) => true
  | _, _ => false

/-- Whether an `AlgebraicValue`'s kind (Sum/Product/Builtin) matches a
(resolved, non-`Ref`) `AlgebraicType`'s kind, following the three typed
arms of `ValueWithType<'_, AlgebraicValue>::serialize` (impls.rs lines
148-150). -/
def algKindMatches (v : AlgebraicValue) (ty : AlgebraicType) : Bool :=
  match v, ty with
  | .Sum _, .Sum _ => true
  | .Product _, .Product _ => true
  | .Builtin _, .Builtin _ => true
  | _, _ => false

/-- Encoding of a signed integer into `Nat` (sign-magnitude interleaving);
used only to define the structural key order below. -/
def encInt (i : Int) : Nat :=
  if i < 0 then 2 * (-i).toNat + 1 else 2 * i.toNat

/-- Encoding of a list of naturals into one natural via `Nat.pair`. -/
def encNatList : List Nat → Nat
  | [] => 0
  | n :: l => Nat.pair n (encNatList l) + 1

/-- Encoding of a string into a natural (its character codes). -/
def encString (s : String) : Nat :=
  encNatList (s.data.map Char.toNat)

mutual

/-- Modelled from the spec (section 3, `MapValue`: "total order is a
structural ordering over values"; the `Ord` implementation for
`AlgebraicValue` is not under `src/`): a structural injection of values
into `Nat`, whose pullback of `Nat`'s order is the fixed structural total
order the key-sorted map representation is sorted by. -/
def encodeAV : AlgebraicValue → Nat
  | .Sum s => Nat.pair 0 (encodeSV s)
  | .Product p => Nat.pair 1 (encodePV p)
  | .Builtin b => Nat.pair 2 (encodeBV b)

def encodeSV : SumValue → Nat
  | .mk tag v => Nat.pair tag (encodeAV v)

def encodePV : ProductValue → Nat
  | .mk es => encodeAVList es

def encodeAVList : List AlgebraicValue → Nat
  | [] => 0
  | v :: vs => Nat.pair (encodeAV v) (encodeAVList vs) + 1

def encodeBV : BuiltinValue → Nat
  | .Bool v => Nat.pair 0 (cond v 1 0)
  | .I8 v => Nat.pair 1 (encInt v)
  | .U8 v => Nat.pair 2 v
  | .I16 v => Nat.pair 3 (encInt v)
  | .U16 v => Nat.pair 4 v
  | .I32 v => Nat.pair 5 (encInt v)
  | .U32 v => Nat.pair 6 v
  | .I64 v => Nat.pair 7 (encInt v)
  | .U64 v => Nat.pair 8 v
  | .I128 v => Nat.pair 9 (encInt v)
  | .U128 v => Nat.pair 10 v
  | .F32 v => Nat.pair 11 v
  | .F64 v => Nat.pair 12 v
  | .String v => Nat.pair 13 (encString v)
  | .Array val => Nat.pair 14 (encodeArr val)
  | .Map val => Nat.pair 15 (encodeMV val)

def encodeArr : ArrayValue → Nat
  | .Sum v => Nat.pair 0 (encodeSVList v)
  | .Product v => Nat.pair 1 (encodePVList v)
  | .Bool v => Nat.pair 2 (encNatList (v.map (cond · 1 0)))
  | .I8 v => Nat.pair 3 (encNatList (v.map encInt))
  | .U8 v => Nat.pair 4 (encNatList v)
  | .I16 v => Nat.pair 5 (encNatList (v.map encInt))
  | .U16 v => Nat.pair 6 (encNatList v)
  | .I32 v => Nat.pair 7 (encNatList (v.map encInt))
  | .U32 v => Nat.pair 8 (encNatList v)
  | .I64 v => Nat.pair 9 (encNatList (v.map encInt))
  | .U64 v => Nat.pair 10 (encNatList v)
  | .I128 v => Nat.pair 11 (encNatList (v.map encInt))
  | .U128 v => Nat.pair 12 (encNatList v)
  | .F32 v => Nat.pair 13 (encNatList v)
  | .F64 v => Nat.pair 14 (encNatList v)
  | .String v => Nat.pair 15 (encNatList (v.map encString))
  | .Array v => Nat.pair 16 (encodeArrList v)
  | .Map v => Nat.pair 17 (encodeMVList v)

def encodeSVList : List SumValue → Nat
  | [] => 0
  | v :: vs => Nat.pair (encodeSV v) (encodeSVList vs) + 1

def encodePVList : List ProductValue → Nat
  | [] => 0
  | v :: vs => Nat.pair (encodePV v) (encodePVList vs) + 1

def encodeArrList : List ArrayValue → Nat
  | [] => 0
  | v :: vs => Nat.pair (encodeArr v) (encodeArrList vs) + 1

def encodeMVList : List MapValue → Nat
  | [] => 0
  | v :: vs => Nat.pair (encodeMV v) (encodeMVList vs) + 1

def encodeMV : MapValue → Nat
  | .mk entries => encodeEntryList entries

def encodeEntryList : List (AlgebraicValue × AlgebraicValue) → Nat
  | [] => 0
  | (k, v) :: rest =>
    Nat.pair (Nat.pair (encodeAV k) (encodeAV v)) (encodeEntryList rest) + 1

end

/-- The structural total order on `AlgebraicValue` (spec section 3: map
keys are sorted by "a structural ordering over values"). -/
def AlgebraicValue.lt (a b : AlgebraicValue) : Prop :=
  encodeAV a < encodeAV b

/-- The key-sortedness invariant of `MapValue` (spec section 3: `MapValue`
is a "key-ordered mapping ... keys unique"): the entry list is strictly
ascending in the key order. -/
def MapValue.keySorted (m : MapValue) : Prop :=
  m.entries.Pairwise fun e₁ e₂ => e₁.1.lt e₂.1

/-- Whether a `Resolved` is the `spin` outcome. -/
def Resolved.isSpin : Resolved → Bool
  | .spin => true
  | _ => false

/-- A typespace in which the `Ref` chain from every entry reaches a
non-`Ref` type (within `ts.length` hops, which by determinism and
pigeonhole is no restriction: a terminating chain never revisits an
index).  This is exactly the condition under which the `Ref`-resolution
loop of impls.rs lines 145-157 cannot run forever. -/
def Typespace.refsResolve (ts : Typespace) : Prop :=
  ∀ r (h : r < ts.length), (resolveRef ts ts.length (ts.get ⟨r, h⟩)).isSpin = false

theorem resolveRef_found_not_ref {ts : Typespace} :
    ∀ {fuel : Nat} {ty t : AlgebraicType},
      resolveRef ts fuel ty = .found t → ∀ r, t ≠ .Ref r := by
  intro fuel
  induction fuel with
  | zero =>
    intro ty t h r
    cases ty <;> simp [resolveRef] at h <;> subst h <;> simp
  | succ n ih =>
    intro ty t h r
    cases ty with
    | Ref i =>
      simp only [resolveRef] at h
      cases hg : ts.get? i with
      | none => rw [hg] at h; simp at h
      | some u => rw [hg] at h; exact ih h r
    | Sum s => simp [resolveRef] at h; subst h; simp
    | Product p => simp [resolveRef] at h; subst h; simp
    | Builtin b => simp [resolveRef] at h; subst h; simp

theorem refsResolve_not_spin {ts : Typespace} (hwf : ts.refsResolve)
    (ty : AlgebraicType) : (resolveRef ts (ts.length + 1) ty).isSpin = false := by
  cases ty with
  | Ref r =>
    simp only [resolveRef]
    cases hg : ts.get? r with
    | none => simp [Resolved.isSpin]
    | some t =>
      obtain ⟨hlt, hget⟩ := List.get?_eq_some.mp hg
      have := hwf r hlt
      rw [hget] at this
      exact this
  | Sum s => simp [resolveRef, Resolved.isSpin]
  | Product p => simp [resolveRef, Resolved.isSpin]
  | Builtin b => simp [resolveRef, Resolved.isSpin]

theorem sorted_same_mem_eq {α : Type} (key : α → Nat) :
    ∀ (l₁ l₂ : List α),
      l₁.Pairwise (fun a b => key a < key b) →
      l₂.Pairwise (fun a b => key a < key b) →
      (∀ x, x ∈ l₁ ↔ x ∈ l₂) → l₁ = l₂ := by
  intro l₁
  induction l₁ with
  | nil =>
    intro l₂ _ _ hmem
    cases l₂ with
    | nil => rfl
    | cons b t => exact absurd ((hmem b).mpr (List.mem_cons_self b t)) (List.not_mem_nil b)
  | cons a t₁ ih =>
    intro l₂ h₁ h₂ hmem
    cases l₂ with
    | nil => exact absurd ((hmem a).mp (List.mem_cons_self a t₁)) (List.not_mem_nil a)
    | cons b t₂ =>
      have ha := List.mem_cons.mp ((hmem a).mp (List.mem_cons_self a t₁))
      have hb := List.mem_cons.mp ((hmem b).mpr (List.mem_cons_self b t₂))
      have hab : a = b := by
        rcases ha with h | ha
        · exact h
        · rcases hb with h | hb
          · exact h.symm
          · have h1 := (List.pairwise_cons.mp h₁).1 b hb
            have h2 := (List.pairwise_cons.mp h₂).1 a ha
            omega
      subst hab
      congr 1
      apply ih t₂ (List.pairwise_cons.mp h₁).2 (List.pairwise_cons.mp h₂).2
      intro x
      constructor
      · intro hx
        have hkx := (List.pairwise_cons.mp h₁).1 x hx
        rcases List.mem_cons.mp ((hmem x).mp (List.mem_cons_of_mem a hx)) with h | h
        · subst h; omega
        · exact h
      · intro hx
        have hkx := (List.pairwise_cons.mp h₂).1 x hx
        rcases List.mem_cons.mp ((hmem x).mpr (List.mem_cons_of_mem a hx)) with h | h
        · subst h; omega
        · exact h

set_option maxHeartbeats 4000000 in
mutual

theorem tserAV_ns (ts : Typespace) (hwf : ts.refsResolve)
    (ty : AlgebraicType) (v : AlgebraicValue) :
    tserAV ts ty v ≠ Except.error SErr.spin := by
  rw [tserAV.eq_def]
  split
  case _ heq =>
    have h := refsResolve_not_spin hwf ty
    rw [heq] at h
    simp [Resolved.isSpin] at h
  case _ => simp
  case _ rty heq =>
    split
    · exact tserSV_ns ts hwf _ _
    · exact tserPV_ns ts hwf _ _
    · exact tserBV_ns ts hwf _ _
    · simp
termination_by sizeOf v

theorem tserSV_ns (ts : Typespace) (hwf : ts.refsResolve)
    (sty : SumType) (sv : SumValue) :
    tserSV ts sty sv ≠ Except.error SErr.spin := by
  rw [tserSV.eq_def]
  split
  split
  · simp
  · split
    case _ heq =>
      intro h
      injection h with h'
      subst h'
      exact absurd heq (tserAV_ns ts hwf _ _)
    · simp
termination_by sizeOf sv

theorem tserPV_ns (ts : Typespace) (hwf : ts.refsResolve)
    (pty : ProductType) (pv : ProductValue) :
    tserPV ts pty pv ≠ Except.error SErr.spin := by
  rw [tserPV.eq_def]
  split
  split
  · split
    case _ heq =>
      intro h
      injection h with h'
      subst h'
      exact absurd heq (tserPVFields_ns ts hwf _ _)
    · simp
  · simp
termination_by sizeOf pv

theorem tserPVFields_ns (ts : Typespace) (hwf : ts.refsResolve)
    (vals : List AlgebraicValue) (tys : List ProductTypeElement) :
    tserPVFields ts vals tys ≠ Except.error SErr.spin := by
  rw [tserPVFields.eq_def]
  split
  · simp
  · simp
  · split
    case _ heq =>
      intro h
      injection h with h'
      subst h'
      exact absurd heq (tserAV_ns ts hwf _ _)
    · split
      case _ heq =>
        intro h
        injection h with h'
        subst h'
        exact absurd heq (tserPVFields_ns ts hwf _ _)
      · simp
termination_by sizeOf vals

theorem tserBV_ns (ts : Typespace) (hwf : ts.refsResolve)
    (bty : BuiltinType) (bv : BuiltinValue) :
    tserBV ts bty bv ≠ Except.error SErr.spin := by
  rw [tserBV.eq_def]
  split
  all_goals first
    | exact tserArr_ns ts hwf _ _
    | exact tserMap_ns ts hwf _ _
    | simp
termination_by sizeOf bv

theorem tserArr_ns (ts : Typespace) (hwf : ts.refsResolve)
    (aty : ArrayType) (av : ArrayValue) :
    tserArr ts aty av ≠ Except.error SErr.spin := by
  rw [tserArr.eq_def]
  split
  case _ heq =>
    split
    case _ heq2 =>
      intro h
      injection h with h'
      subst h'
      exact absurd heq2 (tserVecSumElems_ns ts hwf _ _)
    · simp
  case _ heq =>
    split
    case _ heq2 =>
      intro h
      injection h with h'
      subst h'
      exact absurd heq2 (tserVecProdElems_ns ts hwf _ _)
    · simp
  case _ => simp
  case _ => simp
  case _ => simp
  case _ => simp
  case _ => simp
  case _ => simp
  case _ => simp
  case _ => simp
  case _ => simp
  case _ => simp
  case _ => simp
  case _ => simp
  case _ => simp
  case _ => simp
  case _ heq =>
    split
    case _ heq2 =>
      intro h
      injection h with h'
      subst h'
      exact absurd heq2 (tserVecArrElems_ns ts hwf _ _)
    · simp
  case _ heq =>
    split
    case _ heq2 =>
      intro h
      injection h with h'
      subst h'
      exact absurd heq2 (tserVecMapElems_ns ts hwf _ _)
    · simp
  case _ =>
    split
    · simp
    · simp
termination_by sizeOf av

theorem tserVecSumElems_ns (ts : Typespace) (hwf : ts.refsResolve)
    (sty : SumType) (l : List SumValue) :
    tserVecSumElems ts sty l ≠ Except.error SErr.spin := by
  rw [tserVecSumElems.eq_def]
  split
  · simp
  · split
    case _ heq =>
      intro h
      injection h with h'
      subst h'
      exact absurd heq (tserSV_ns ts hwf _ _)
    · split
      case _ heq =>
        intro h
        injection h with h'
        subst h'
        exact absurd heq (tserVecSumElems_ns ts hwf _ _)
      · simp
termination_by sizeOf l

theorem tserVecProdElems_ns (ts : Typespace) (hwf : ts.refsResolve)
    (pty : ProductType) (l : List ProductValue) :
    tserVecProdElems ts pty l ≠ Except.error SErr.spin := by
  rw [tserVecProdElems.eq_def]
  split
  · simp
  · split
    case _ heq =>
      intro h
      injection h with h'
      subst h'
      exact absurd heq (tserPV_ns ts hwf _ _)
    · split
      case _ heq =>
        intro h
        injection h with h'
        subst h'
        exact absurd heq (tserVecProdElems_ns ts hwf _ _)
      · simp
termination_by sizeOf l

theorem tserVecArrElems_ns (ts : Typespace) (hwf : ts.refsResolve)
    (aty : ArrayType) (l : List ArrayValue) :
    tserVecArrElems ts aty l ≠ Except.error SErr.spin := by
  rw [tserVecArrElems.eq_def]
  split
  · simp
  · split
    case _ heq =>
      intro h
      injection h with h'
      subst h'
      exact absurd heq (tserArr_ns ts hwf _ _)
    · split
      case _ heq =>
        intro h
        injection h with h'
        subst h'
        exact absurd heq (tserVecArrElems_ns ts hwf _ _)
      · simp
termination_by sizeOf l

theorem tserVecMapElems_ns (ts : Typespace) (hwf : ts.refsResolve)
    (mty : MapType) (l : List MapValue) :
    tserVecMapElems ts mty l ≠ Except.error SErr.spin := by
  rw [tserVecMapElems.eq_def]
  split
  · simp
  · split
    case _ heq =>
      intro h
      injection h with h'
      subst h'
      exact absurd heq (tserMap_ns ts hwf _ _)
    · split
      case _ heq =>
        intro h
        injection h with h'
        subst h'
        exact absurd heq (tserVecMapElems_ns ts hwf _ _)
      · simp
termination_by sizeOf l

theorem tserMap_ns (ts : Typespace) (hwf : ts.refsResolve)
    (mty : MapType) (mv : MapValue) :
    tserMap ts mty mv ≠ Except.error SErr.spin := by
  rw [tserMap.eq_def]
  split
  split
  case _ heq =>
    intro h
    injection h with h'
    subst h'
    exact absurd heq (tserMapEntries_ns ts hwf _ _ _)
  · simp
termination_by sizeOf mv

theorem tserMapEntries_ns (ts : Typespace) (hwf : ts.refsResolve)
    (kty vty : AlgebraicType) (l : List (AlgebraicValue × AlgebraicValue)) :
    tserMapEntries ts kty vty l ≠ Except.error SErr.spin := by
  rw [tserMapEntries.eq_def]
  split
  · simp
  · split
    case _ heq =>
      intro h
      injection h with h'
      subst h'
      exact absurd heq (tserAV_ns ts hwf _ _)
    · split
      case _ heq =>
        intro h
        injection h with h'
        subst h'
        exact absurd heq (tserAV_ns ts hwf _ _)
      · split
        case _ heq =>
          intro h
          injection h with h'
          subst h'
          exact absurd heq (tserMapEntries_ns ts hwf _ _ _)
        · simp
termination_by sizeOf l

end

/-- In the typespace `[Ref 0]` (one entry, which is a `Ref` back to index
0), resolving `Ref 0` never reaches a non-`Ref` type no matter how much
fuel is available: the source loop `ty = &self.typespace()[r]; continue`
revisits the same `Ref` forever. -/
theorem resolveRef_refCycleSpins :
    ∀ fuel, resolveRef [AlgebraicType.Ref 0] fuel (.Ref 0) = .spin := by
  intro fuel
  induction fuel with
  | zero => rfl
  | succ n ih => exact ih

/-- C1 counterexample: with the cyclic-via-`Ref` typespace `[Ref 0]`, the
type `Ref 0` and the concrete finite value `true`, schema-paired
serialization takes the `spin` outcome: the `Ref`-resolution loop runs
forever (see `resolveRef_refCycleSpins`), so it is not true that the loop
terminates for every cyclic schema graph. -/
theorem c1_refLoop_counterexample :
    tserAV [AlgebraicType.Ref 0] (.Ref 0) (.Builtin (.Bool true)) =
      .error .spin := by
  rw [tserAV.eq_def]
  rw [show resolveRef [AlgebraicType.Ref 0]
        (([AlgebraicType.Ref 0] : Typespace).length + 1) (.Ref 0) = .spin
      from resolveRef_refCycleSpins 2]

/-- C1 (amended): schema-paired serialization of any concrete value never
takes the `spin` outcome — the `Ref`-resolution loop terminates — provided
the `Ref` chain from every typespace entry reaches a non-`Ref` type
(`Typespace.refsResolve`); a cycle consisting solely of `Ref` entries
(e.g. `[Ref 0]`) makes the loop run forever. -/
theorem c1_terminationRefsResolve (ts : Typespace) (hwf : ts.refsResolve)
    (ty : AlgebraicType) (v : AlgebraicValue) :
    tserAV ts ty v ≠ Except.error SErr.spin :=
  tserAV_ns ts hwf ty v

/-- C1 witness: a typespace that is cyclic via `Ref` (a self-referential
sum type, `Ref 0` appearing inside entry 0) but whose entries resolve; on
it, serializing a concrete value against `Ref 0` does not spin. -/
theorem c1_terminationRefsResolve_witness :
    Typespace.refsResolve
        [AlgebraicType.Sum (.mk [.mk (some "none") (.Builtin .Bool),
                                 .mk (some "some") (.Ref 0)])] ∧
    tserAV [AlgebraicType.Sum (.mk [.mk (some "none") (.Builtin .Bool),
                                    .mk (some "some") (.Ref 0)])]
        (.Ref 0) (.Sum (.mk 0 (.Builtin (.Bool true)))) ≠
      Except.error SErr.spin := by
  constructor
  · unfold Typespace.refsResolve
    decide
  · exact c1_terminationRefsResolve _ (by unfold Typespace.refsResolve; decide) _ _

/-- C7: untyped `SumValue` serialization emits exactly one
`serialize_variant` call carrying the value's tag, an absent name, and the
untyped serialization of the inner value as payload. -/
theorem c7_sumValueVariantNoName (sv : SumValue) :
    serializeSV sv = .variant sv.tag none (serializeAV sv.value) := by
  cases sv
  rfl

/-- C6: untyped serialization of `Some x` is a variant with tag 0 and name
"some" whose payload is the serialization of `x` itself, and of `None` a
variant with tag 1 and name "none" whose payload is the empty
sequence-product. -/
theorem c6_optionTwoVariantSum {α : Type} [Serialize α] (x : α) :
    Serialize.serialize (some x) =
      Ser.variant 0 (some "some") (Serialize.serialize x) ∧
    Serialize.serialize (none : Option α) =
      Ser.variant 1 (some "none") (.seqProduct 0 []) :=
  ⟨rfl, rfl⟩

/-- C8: byte sequences (`[u8]`, `Vec<u8>`, `[u8; N]`, and the `U8` variant
of `ArrayValue`) serialize through the single bulk `serialize_bytes` call,
never through `serialize_array` plus per-element calls. -/
theorem c8_bytesBulkFastPath (l : List U8) :
    serializeSlice l = .bytes (l.map U8.val) ∧
    serializeVec l = .bytes (l.map U8.val) ∧
    serializeFixedArr l = .bytes (l.map U8.val) ∧
    serializeArr (.U8 (l.map U8.val)) = .bytes (l.map U8.val) ∧
    ∀ n es, Ser.bytes (l.map U8.val) ≠ Ser.array n es :=
  ⟨rfl, rfl, rfl, rfl, by intro n es h; cases h⟩

theorem tserVecSumElems_nil (ts : Typespace) (sty : SumType) :
    tserVecSumElems ts sty [] = .ok [] := by
  rw [tserVecSumElems.eq_def]

theorem tserVecProdElems_nil (ts : Typespace) (pty : ProductType) :
    tserVecProdElems ts pty [] = .ok [] := by
  rw [tserVecProdElems.eq_def]

theorem tserVecArrElems_nil (ts : Typespace) (aty : ArrayType) :
    tserVecArrElems ts aty [] = .ok [] := by
  rw [tserVecArrElems.eq_def]

theorem tserVecMapElems_nil (ts : Typespace) (mty : MapType) :
    tserVecMapElems ts mty [] = .ok [] := by
  rw [tserVecMapElems.eq_def]

/-- Successful-with-zero-elements outcome: the call returned `Ok` and the
emitted node contains zero elements/entries/bytes. -/
def SRes.okNoElems : SRes → Bool
  | .ok s => s.emittedCount == 0
  | .error _ => false

/-- C3: in schema-paired traversal, kind mismatches are fatal: a non-empty
`ArrayValue` whose concrete element kind differs from the declared element
kind panics, and an `AlgebraicValue` whose kind (Sum/Product/Builtin)
differs from the resolved type's kind panics; in both cases the result is
an error, never an `Ok` emission. -/
theorem c3_kindMismatchFatal (ts : Typespace) :
    (∀ (aty : ArrayType) (av : ArrayValue), av.is_empty = false →
      arrayKindMatches av aty.elem_ty = false →
      tserArr ts aty av = .error .panicked) ∧
    (∀ (ty rty : AlgebraicType) (v : AlgebraicValue),
      resolveRef ts (ts.length + 1) ty = .found rty →
      algKindMatches v rty = false →
      tserAV ts ty v = .error .panicked) := by
  constructor
  · intro aty av hne hkm
    rw [tserArr.eq_def]
    split
    all_goals try (simp [arrayKindMatches, *] at hkm)
    simp [hne]
  · intro ty rty v hres hkm
    rw [tserAV.eq_def, hres]
    cases v <;> cases rty <;> simp [algKindMatches] at hkm ⊢

/-- C3 witness: a non-empty `Bool` array against declared element type
`U8` is rejected, and a `Builtin` value against a type resolving to a
`Product` type is rejected. -/
theorem c3_kindMismatchFatal_witness :
    tserArr [] (.mk (.Builtin .U8)) (.Bool [true]) = .error .panicked ∧
    tserAV [] (.Product (.mk [])) (.Builtin (.Bool true)) =
      .error .panicked :=
  ⟨(c3_kindMismatchFatal []).1 _ _ (by decide) (by decide),
   (c3_kindMismatchFatal []).2 _ (.Product (.mk [])) _ rfl (by decide)⟩

/-- C4: an empty `ArrayValue` of any variant kind, paired with any
declared builtin array element type, serializes successfully and emits
zero elements. -/
theorem c4_emptyArrayAnyBuiltinElem (ts : Typespace) (bty : BuiltinType)
    (av : ArrayValue) (h : av.is_empty = true) :
    (tserArr ts (.mk (.Builtin bty)) av).okNoElems = true := by
  cases av <;>
    (rename_i l
     cases l with
     | cons a as => simp [ArrayValue.is_empty] at h
     | nil =>
       cases bty <;> rw [tserArr.eq_def] <;>
         simp [tserVecSumElems_nil, tserVecProdElems_nil, tserVecArrElems_nil,
           tserVecMapElems_nil, SRes.okNoElems, Ser.emittedCount,
           serArrayDefault, ArrayValue.is_empty, ArrayType.elem_ty])

/-- C4 witness: the empty `U8` array against declared element type `Bool`
serializes successfully with zero emitted elements. -/
theorem c4_emptyArrayAnyBuiltinElem_witness :
    (tserArr [] (.mk (.Builtin .Bool)) (.U8 [])).okNoElems = true :=
  c4_emptyArrayAnyBuiltinElem [] .Bool (.U8 []) (by decide)

/-- C10: the `serialize_array(0)?.end()` fallback for an empty array value
is taken only when the concrete element kind does not match the declared
one; an empty array whose kind does match takes the same typed per-kind
path as a non-empty one — e.g. the empty `U8` array against declared
element kind `U8` emits `serialize_bytes` on an empty slice, which is not
the `serialize_array(0)` emission. -/
theorem c10_emptyFallbackOnlyOnMismatch (ts : Typespace) :
    (∀ (aty : ArrayType) (av : ArrayValue), av.is_empty = true →
      arrayKindMatches av aty.elem_ty = false →
      tserArr ts aty av = .ok (.array 0 [])) ∧
    tserArr ts (.mk (.Builtin .U8)) (.U8 []) = .ok (.bytes []) ∧
    (Ser.bytes []) ≠ (Ser.array 0 []) := by
  refine ⟨?_, by simp [tserArr.eq_def, ArrayType.elem_ty], by simp⟩
  intro aty av hemp hkm
  rw [tserArr.eq_def]
  split
  all_goals try (simp [arrayKindMatches, *] at hkm)
  simp [hemp]

/-- C10 witness: the empty `Sum` array against declared element kind `U8`
(a kind mismatch) takes the fallback and emits `serialize_array(0)`. -/
theorem c10_emptyFallbackOnlyOnMismatch_witness :
    tserArr [] (.mk (.Builtin .U8)) (.Sum []) = .ok (.array 0 []) :=
  (c10_emptyFallbackOnlyOnMismatch []).1 (.mk (.Builtin .U8)) (.Sum [])
    (by decide) (by decide)

theorem tserPVFields_spec (ts : Typespace) :
    ∀ (vals : List AlgebraicValue) (tys : List ProductTypeElement)
      (fields : List (Option String × Ser)),
      tserPVFields ts vals tys = .ok fields →
      vals.length = tys.length →
      fields.length = vals.length ∧
      ∀ i (hi : i < fields.length) (hv : i < vals.length)
        (ht : i < tys.length),
        (fields.get ⟨i, hi⟩).1 = (tys.get ⟨i, ht⟩).name ∧
        tserAV ts (tys.get ⟨i, ht⟩).algebraic_type (vals.get ⟨i, hv⟩) =
          .ok (fields.get ⟨i, hi⟩).2 := by
  intro vals
  induction vals with
  | nil =>
    intro tys fields h hlen
    rw [tserPVFields.eq_def] at h
    simp at h
    subst h
    refine ⟨rfl, ?_⟩
    intro i hi
    simp at hi
  | cons v vs ih =>
    intro tys fields h hlen
    cases tys with
    | nil => simp at hlen
    | cons el els =>
      rw [tserPVFields.eq_def] at h
      simp only at h
      cases hav : tserAV ts el.algebraic_type v with
      | error e => rw [hav] at h; simp at h
      | ok s =>
        rw [hav] at h
        cases hrest : tserPVFields ts vs els with
        | error e => rw [hrest] at h; simp at h
        | ok rest =>
          rw [hrest] at h
          simp at h
          subst h
          have hlen' : vs.length = els.length := by
            simp at hlen
            exact hlen
          obtain ⟨hrl, hrspec⟩ := ih els rest hrest hlen'
          refine ⟨by simp [hrl], ?_⟩
          intro i hi hv ht
          cases i with
          | zero => exact ⟨rfl, hav⟩
          | succ j =>
            simp only [List.length_cons] at hi hv ht
            exact hrspec j (by omega) (by omega) (by omega)

/-- C2: schema-paired `ProductValue` serialization panics when the value's
element count differs from the declared element count, and on success it
emits `serialize_named_product(N)` with exactly `N` element calls in the
value's original order, the `i`-th carrying the `i`-th declared element's
name (or its absence) and the serialization of the `i`-th value element
against the `i`-th declared element type. -/
theorem c2_productPairedSerialization (ts : Typespace) (pty : ProductType)
    (pv : ProductValue) :
    (pv.elements.length ≠ pty.elements.length →
      tserPV ts pty pv = .error .panicked) ∧
    (∀ s, tserPV ts pty pv = .ok s →
      pv.elements.length = pty.elements.length ∧
      ∃ fields, s = .namedProduct pv.elements.length fields ∧
        fields.length = pv.elements.length ∧
        ∀ i (hi : i < fields.length) (hv : i < pv.elements.length)
          (ht : i < pty.elements.length),
          (fields.get ⟨i, hi⟩).1 = (pty.elements.get ⟨i, ht⟩).name ∧
          tserAV ts (pty.elements.get ⟨i, ht⟩).algebraic_type
              (pv.elements.get ⟨i, hv⟩) =
            .ok (fields.get ⟨i, hi⟩).2) := by
  cases pv with
  | mk elements =>
    constructor
    · intro hne
      rw [tserPV.eq_def]
      simp only [ProductValue.elements] at hne
      simp [hne]
    · intro s h
      rw [tserPV.eq_def] at h
      simp only at h
      by_cases hlen : elements.length = pty.elements.length
      · rw [if_pos hlen] at h
        cases hf : tserPVFields ts elements pty.elements with
        | error e => rw [hf] at h; simp at h
        | ok fields =>
          rw [hf] at h
          simp at h
          subst h
          obtain ⟨hfl, hfspec⟩ := tserPVFields_spec ts elements pty.elements fields hf hlen
          exact ⟨hlen, fields, rfl, hfl, hfspec⟩
      · rw [if_neg hlen] at h
        simp at h

/-- C2 witness: a one-element product value paired with an empty product
type (unequal counts) is a fatal schema-consistency violation. -/
theorem c2_productPairedSerialization_witness :
    tserPV [] (.mk []) (.mk [.Builtin (.Bool true)]) = .error .panicked :=
  (c2_productPairedSerialization [] (.mk []) (.mk [.Builtin (.Bool true)])).1
    (by decide)

/-- C5: map serialization visits entries in ascending key order: a
key-sorted map emits its entries in entry-list (ascending-key) order, and
any two key-sorted maps holding the same set of key/value pairs produce
identical emissions, both untyped (`BTreeMap` iteration) and schema-paired
(`ValueWithType<'_, MapValue>`). -/
theorem c5_mapAscendingKeyOrder (m₁ m₂ : MapValue)
    (h₁ : m₁.keySorted) (h₂ : m₂.keySorted)
    (hset : ∀ e, e ∈ m₁.entries ↔ e ∈ m₂.entries) :
    serializeMapV m₁ = serializeMapV m₂ ∧
    (∀ (ts : Typespace) (mty : MapType),
      tserMap ts mty m₁ = tserMap ts mty m₂) ∧
    serializeMapV m₁ =
      .map m₁.entries.length (serializeEntryList m₁.entries) := by
  have hent : m₁.entries = m₂.entries := by
    apply sorted_same_mem_eq (fun e => encodeAV e.1) _ _ _ _ hset
    · exact h₁
    · exact h₂
  cases m₁ with
  | mk e₁ =>
    cases m₂ with
    | mk e₂ =>
      simp only [MapValue.entries] at hent
      subst hent
      exact ⟨rfl, fun ts mty => rfl, rfl⟩

/-- C5 witness: two identical singleton key-sorted maps serialize
identically (and in entry order). -/
theorem c5_mapAscendingKeyOrder_witness :
    serializeMapV (.mk [(.Builtin (.U8 1), .Builtin (.Bool true))]) =
      serializeMapV (.mk [(.Builtin (.U8 1), .Builtin (.Bool true))]) ∧
    (∀ (ts : Typespace) (mty : MapType),
      tserMap ts mty (.mk [(.Builtin (.U8 1), .Builtin (.Bool true))]) =
        tserMap ts mty (.mk [(.Builtin (.U8 1), .Builtin (.Bool true))])) ∧
    serializeMapV (.mk [(.Builtin (.U8 1), .Builtin (.Bool true))]) =
      .map (MapValue.mk [(.Builtin (.U8 1), .Builtin (.Bool true))]).entries.length
        (serializeEntryList
          (MapValue.mk [(.Builtin (.U8 1), .Builtin (.Bool true))]).entries) :=
  c5_mapAscendingKeyOrder _ _
    (by simp [MapValue.keySorted, MapValue.entries])
    (by simp [MapValue.keySorted, MapValue.entries])
    (fun e => Iff.rfl)

theorem Ser.lenOk_scalar (b : Bool) (i : Int) (n : Nat) (s : String)
    (bs : List Nat) :
    (Ser.bool b).lenOk = true ∧ (Ser.i8 i).lenOk = true ∧
    (Ser.u8 n).lenOk = true ∧ (Ser.i16 i).lenOk = true ∧
    (Ser.u16 n).lenOk = true ∧ (Ser.i32 i).lenOk = true ∧
    (Ser.u32 n).lenOk = true ∧ (Ser.i64 i).lenOk = true ∧
    (Ser.u64 n).lenOk = true ∧ (Ser.i128 i).lenOk = true ∧
    (Ser.u128 n).lenOk = true ∧ (Ser.f32 n).lenOk = true ∧
    (Ser.f64 n).lenOk = true ∧ (Ser.str s).lenOk = true ∧
    (Ser.bytes bs).lenOk = true := by
  refine ⟨?_, ?_, ?_, ?_, ?_, ?_, ?_, ?_, ?_, ?_, ?_, ?_, ?_, ?_, ?_⟩ <;>
    rw [Ser.lenOk.eq_def]

theorem Ser.lenOk_bool (b : Bool) : (Ser.bool b).lenOk = true := by
  rw [Ser.lenOk.eq_def]

theorem Ser.lenOk_variant (t : Nat) (nm : Option String) (p : Ser) :
    (Ser.variant t nm p).lenOk = p.lenOk := by
  rw [Ser.lenOk.eq_def]

theorem Ser.lenOk_array (n : Nat) (l : List Ser) :
    (Ser.array n l).lenOk = (n == l.length && Ser.lenOkList l) := by
  rw [Ser.lenOk.eq_def]

theorem Ser.lenOk_map (n : Nat) (l : List (Ser × Ser)) :
    (Ser.map n l).lenOk = (n == l.length && Ser.lenOkPairs l) := by
  rw [Ser.lenOk.eq_def]

theorem Ser.lenOk_seqProduct (n : Nat) (l : List Ser) :
    (Ser.seqProduct n l).lenOk = (n == l.length && Ser.lenOkList l) := by
  rw [Ser.lenOk.eq_def]

theorem Ser.lenOk_namedProduct (n : Nat) (l : List (Option String × Ser)) :
    (Ser.namedProduct n l).lenOk = (n == l.length && Ser.lenOkNamed l) := by
  rw [Ser.lenOk.eq_def]

theorem Ser.lenOkList_nil : Ser.lenOkList [] = true := by
  rw [Ser.lenOkList.eq_def]

theorem Ser.lenOkList_cons (s : Ser) (l : List Ser) :
    Ser.lenOkList (s :: l) = (s.lenOk && Ser.lenOkList l) := by
  rw [Ser.lenOkList.eq_def]

theorem Ser.lenOkPairs_nil : Ser.lenOkPairs [] = true := by
  rw [Ser.lenOkPairs.eq_def]

theorem Ser.lenOkPairs_cons (k v : Ser) (l : List (Ser × Ser)) :
    Ser.lenOkPairs ((k, v) :: l) = (k.lenOk && v.lenOk && Ser.lenOkPairs l) := by
  rw [Ser.lenOkPairs.eq_def]

theorem Ser.lenOkNamed_nil : Ser.lenOkNamed [] = true := by
  rw [Ser.lenOkNamed.eq_def]

theorem Ser.lenOkNamed_cons (nm : Option String) (s : Ser)
    (l : List (Option String × Ser)) :
    Ser.lenOkNamed ((nm, s) :: l) = (s.lenOk && Ser.lenOkNamed l) := by
  rw [Ser.lenOkNamed.eq_def]

theorem length_serializeAVList (l : List AlgebraicValue) :
    (serializeAVList l).length = l.length := by
  induction l with
  | nil => rfl
  | cons v vs ih =>
    rw [show serializeAVList (v :: vs) = serializeAV v :: serializeAVList vs
        from rfl]
    simp [ih]

theorem length_serializeSVList (l : List SumValue) :
    (serializeSVList l).length = l.length := by
  induction l with
  | nil => rfl
  | cons v vs ih =>
    rw [show serializeSVList (v :: vs) = serializeSV v :: serializeSVList vs
        from rfl]
    simp [ih]

theorem length_serializePVList (l : List ProductValue) :
    (serializePVList l).length = l.length := by
  induction l with
  | nil => rfl
  | cons v vs ih =>
    rw [show serializePVList (v :: vs) = serializePV v :: serializePVList vs
        from rfl]
    simp [ih]

theorem length_serializeArrList (l : List ArrayValue) :
    (serializeArrList l).length = l.length := by
  induction l with
  | nil => rfl
  | cons v vs ih =>
    rw [show serializeArrList (v :: vs) = serializeArr v :: serializeArrList vs
        from rfl]
    simp [ih]

theorem length_serializeMapVList (l : List MapValue) :
    (serializeMapVList l).length = l.length := by
  induction l with
  | nil => rfl
  | cons v vs ih =>
    rw [show serializeMapVList (v :: vs) =
          serializeMapV v :: serializeMapVList vs from rfl]
    simp [ih]

theorem length_serializeEntryList
    (l : List (AlgebraicValue × AlgebraicValue)) :
    (serializeEntryList l).length = l.length := by
  induction l with
  | nil => rfl
  | cons e rest ih =>
    rw [show serializeEntryList (e :: rest) =
          (serializeAV e.1, serializeAV e.2) :: serializeEntryList rest
        from by cases e; rfl]
    simp [ih]

theorem lenOkList_map {α : Type} (f : α → Ser)
    (hf : ∀ x, (f x).lenOk = true) (l : List α) :
    Ser.lenOkList (l.map f) = true := by
  induction l with
  | nil => rw [List.map_nil, Ser.lenOkList_nil]
  | cons x xs ih =>
    rw [List.map_cons, Ser.lenOkList_cons, hf x, ih]
    rfl

theorem lenOk_serArrayDefault {α : Type} (f : α → Ser)
    (hf : ∀ x, (f x).lenOk = true) (l : List α) :
    (serArrayDefault f l).lenOk = true := by
  rw [serArrayDefault, Ser.lenOk_array, lenOkList_map f hf l]
  simp

set_option maxHeartbeats 4000000 in
mutual

theorem lenOk_serializeAV (v : AlgebraicValue) :
    (serializeAV v).lenOk = true := by
  rw [serializeAV.eq_def]
  split
  · exact lenOk_serializeSV _
  · exact lenOk_serializePV _
  · exact lenOk_serializeBV _
termination_by sizeOf v

theorem lenOk_serializeSV (sv : SumValue) :
    (serializeSV sv).lenOk = true := by
  rw [serializeSV.eq_def]
  split
  rename_i tag value
  rw [Ser.lenOk_variant]
  exact lenOk_serializeAV value
termination_by sizeOf sv

theorem lenOk_serializePV (p : ProductValue) :
    (serializePV p).lenOk = true := by
  rw [serializePV.eq_def]
  split
  rename_i es
  rw [Ser.lenOk_seqProduct, length_serializeAVList,
    lenOkList_serializeAVList es]
  simp
termination_by sizeOf p

theorem lenOkList_serializeAVList (l : List AlgebraicValue) :
    Ser.lenOkList (serializeAVList l) = true := by
  rw [serializeAVList.eq_def]
  split
  · rw [Ser.lenOkList_nil]
  · rename_i v vs
    rw [Ser.lenOkList_cons, lenOk_serializeAV v, lenOkList_serializeAVList vs]
    rfl
termination_by sizeOf l

theorem lenOk_serializeBV (b : BuiltinValue) :
    (serializeBV b).lenOk = true := by
  rw [serializeBV.eq_def]
  split
  · rw [Ser.lenOk.eq_def]
  · rw [Ser.lenOk.eq_def]
  · rw [Ser.lenOk.eq_def]
  · rw [Ser.lenOk.eq_def]
  · rw [Ser.lenOk.eq_def]
  · rw [Ser.lenOk.eq_def]
  · rw [Ser.lenOk.eq_def]
  · rw [Ser.lenOk.eq_def]
  · rw [Ser.lenOk.eq_def]
  · rw [Ser.lenOk.eq_def]
  · rw [Ser.lenOk.eq_def]
  · rw [Ser.lenOk.eq_def]
  · rw [Ser.lenOk.eq_def]
  · rw [Ser.lenOk.eq_def]
  · exact lenOk_serializeArr _
  · exact lenOk_serializeMapV _
termination_by sizeOf b

theorem lenOk_serializeArr (a : ArrayValue) :
    (serializeArr a).lenOk = true := by
  rw [serializeArr.eq_def]
  split
  · rename_i v
    rw [Ser.lenOk_array, length_serializeSVList, lenOkList_serializeSVList v]
    simp
  · rename_i v
    rw [Ser.lenOk_array, length_serializePVList, lenOkList_serializePVList v]
    simp
  · rw [Ser.lenOk_array, lenOkList_map _ (fun x => by rw [Ser.lenOk.eq_def]) _]
    simp
  · rw [Ser.lenOk_array, lenOkList_map _ (fun x => by rw [Ser.lenOk.eq_def]) _]
    simp
  · rw [Ser.lenOk.eq_def]
  · rw [Ser.lenOk_array, lenOkList_map _ (fun x => by rw [Ser.lenOk.eq_def]) _]
    simp
  · rw [Ser.lenOk_array, lenOkList_map _ (fun x => by rw [Ser.lenOk.eq_def]) _]
    simp
  · rw [Ser.lenOk_array, lenOkList_map _ (fun x => by rw [Ser.lenOk.eq_def]) _]
    simp
  · rw [Ser.lenOk_array, lenOkList_map _ (fun x => by rw [Ser.lenOk.eq_def]) _]
    simp
  · rw [Ser.lenOk_array, lenOkList_map _ (fun x => by rw [Ser.lenOk.eq_def]) _]
    simp
  · rw [Ser.lenOk_array, lenOkList_map _ (fun x => by rw [Ser.lenOk.eq_def]) _]
    simp
  · rw [Ser.lenOk_array, lenOkList_map _ (fun x => by rw [Ser.lenOk.eq_def]) _]
    simp
  · rw [Ser.lenOk_array, lenOkList_map _ (fun x => by rw [Ser.lenOk.eq_def]) _]
    simp
  · rw [Ser.lenOk_array, lenOkList_map _ (fun x => by rw [Ser.lenOk.eq_def]) _]
    simp
  · rw [Ser.lenOk_array, lenOkList_map _ (fun x => by rw [Ser.lenOk.eq_def]) _]
    simp
  · rw [Ser.lenOk_array, lenOkList_map _ (fun x => by rw [Ser.lenOk.eq_def]) _]
    simp
  · rename_i v
    rw [Ser.lenOk_array, length_serializeArrList, lenOkList_serializeArrList v]
    simp
  · rename_i v
    rw [Ser.lenOk_array, length_serializeMapVList,
      lenOkList_serializeMapVList v]
    simp
termination_by sizeOf a

theorem lenOkList_serializeSVList (l : List SumValue) :
    Ser.lenOkList (serializeSVList l) = true := by
  rw [serializeSVList.eq_def]
  split
  · rw [Ser.lenOkList_nil]
  · rename_i v vs
    rw [Ser.lenOkList_cons, lenOk_serializeSV v, lenOkList_serializeSVList vs]
    rfl
termination_by sizeOf l

theorem lenOkList_serializePVList (l : List ProductValue) :
    Ser.lenOkList (serializePVList l) = true := by
  rw [serializePVList.eq_def]
  split
  · rw [Ser.lenOkList_nil]
  · rename_i v vs
    rw [Ser.lenOkList_cons, lenOk_serializePV v, lenOkList_serializePVList vs]
    rfl
termination_by sizeOf l

theorem lenOkList_serializeArrList (l : List ArrayValue) :
    Ser.lenOkList (serializeArrList l) = true := by
  rw [serializeArrList.eq_def]
  split
  · rw [Ser.lenOkList_nil]
  · rename_i v vs
    rw [Ser.lenOkList_cons, lenOk_serializeArr v, lenOkList_serializeArrList vs]
    rfl
termination_by sizeOf l

theorem lenOkList_serializeMapVList (l : List MapValue) :
    Ser.lenOkList (serializeMapVList l) = true := by
  rw [serializeMapVList.eq_def]
  split
  · rw [Ser.lenOkList_nil]
  · rename_i v vs
    rw [Ser.lenOkList_cons, lenOk_serializeMapV v,
      lenOkList_serializeMapVList vs]
    rfl
termination_by sizeOf l

theorem lenOk_serializeMapV (m : MapValue) :
    (serializeMapV m).lenOk = true := by
  rw [serializeMapV.eq_def]
  split
  rename_i entries
  rw [Ser.lenOk_map, length_serializeEntryList,
    lenOkPairs_serializeEntryList entries]
  simp
termination_by sizeOf m

theorem lenOkPairs_serializeEntryList
    (l : List (AlgebraicValue × AlgebraicValue)) :
    Ser.lenOkPairs (serializeEntryList l) = true := by
  rw [serializeEntryList.eq_def]
  split
  · rw [Ser.lenOkPairs_nil]
  · rename_i k v rest
    rw [Ser.lenOkPairs_cons, lenOk_serializeAV k, lenOk_serializeAV v,
      lenOkPairs_serializeEntryList rest]
    rfl
termination_by sizeOf l

end

set_option maxHeartbeats 4000000 in
mutual

theorem tlenOk_AV (ts : Typespace) (ty : AlgebraicType) (v : AlgebraicValue) :
    ∀ s, tserAV ts ty v = .ok s → s.lenOk = true := by
  intro s h
  rw [tserAV.eq_def] at h
  split at h
  · simp at h
  · simp at h
  · split at h
    · exact tlenOk_SV ts _ _ s h
    · exact tlenOk_PV ts _ _ s h
    · exact tlenOk_BV ts _ _ s h
    · simp at h
termination_by sizeOf v

theorem tlenOk_SV (ts : Typespace) (sty : SumType) (sv : SumValue) :
    ∀ s, tserSV ts sty sv = .ok s → s.lenOk = true := by
  intro s h
  rw [tserSV.eq_def] at h
  split at h
  split at h
  · simp at h
  · split at h
    · simp at h
    · rename_i payload heq
      simp at h
      subst h
      rw [Ser.lenOk_variant]
      exact tlenOk_AV ts _ _ payload heq
termination_by sizeOf sv

theorem tlenOk_PV (ts : Typespace) (pty : ProductType) (pv : ProductValue) :
    ∀ s, tserPV ts pty pv = .ok s → s.lenOk = true := by
  intro s h
  rw [tserPV.eq_def] at h
  split at h
  rename_i elements
  split at h
  · rename_i hguard
    split at h
    · simp at h
    · rename_i fields heq
      simp at h
      subst h
      obtain ⟨hl, hok⟩ := tlenOk_PVFields ts _ _ fields heq
      rw [Ser.lenOk_namedProduct, hok]
      simp
      omega
  · simp at h
termination_by sizeOf pv

theorem tlenOk_PVFields (ts : Typespace) (vals : List AlgebraicValue)
    (tys : List ProductTypeElement) :
    ∀ fs, tserPVFields ts vals tys = .ok fs →
      fs.length = min vals.length tys.length ∧ Ser.lenOkNamed fs = true := by
  intro fs h
  rw [tserPVFields.eq_def] at h
  split at h
  · simp at h
    subst h
    exact ⟨by simp, Ser.lenOkNamed_nil⟩
  · simp at h
    subst h
    exact ⟨by simp, Ser.lenOkNamed_nil⟩
  · rename_i v vs el els
    split at h
    · simp at h
    · rename_i s heq
      split at h
      · simp at h
      · rename_i rest heqr
        simp at h
        subst h
        obtain ⟨hl, hok⟩ := tlenOk_PVFields ts vs els rest heqr
        constructor
        · simp [hl]
          omega
        · rw [Ser.lenOkNamed_cons, hok, tlenOk_AV ts _ _ s heq]
          rfl
termination_by sizeOf vals

theorem tlenOk_BV (ts : Typespace) (bty : BuiltinType) (bv : BuiltinValue) :
    ∀ s, tserBV ts bty bv = .ok s → s.lenOk = true := by
  intro s h
  rw [tserBV.eq_def] at h
  split at h
  · simp at h; subst h; rw [Ser.lenOk.eq_def]
  · simp at h; subst h; rw [Ser.lenOk.eq_def]
  · simp at h; subst h; rw [Ser.lenOk.eq_def]
  · simp at h; subst h; rw [Ser.lenOk.eq_def]
  · simp at h; subst h; rw [Ser.lenOk.eq_def]
  · simp at h; subst h; rw [Ser.lenOk.eq_def]
  · simp at h; subst h; rw [Ser.lenOk.eq_def]
  · simp at h; subst h; rw [Ser.lenOk.eq_def]
  · simp at h; subst h; rw [Ser.lenOk.eq_def]
  · simp at h; subst h; rw [Ser.lenOk.eq_def]
  · simp at h; subst h; rw [Ser.lenOk.eq_def]
  · simp at h; subst h; rw [Ser.lenOk.eq_def]
  · simp at h; subst h; rw [Ser.lenOk.eq_def]
  · simp at h; subst h; rw [Ser.lenOk.eq_def]
  · exact tlenOk_Arr ts _ _ s h
  · exact tlenOk_Map ts _ _ s h
  · simp at h
termination_by sizeOf bv

theorem tlenOk_Arr (ts : Typespace) (aty : ArrayType) (av : ArrayValue) :
    ∀ s, tserArr ts aty av = .ok s → s.lenOk = true := by
  intro s h
  rw [tserArr.eq_def] at h
  split at h
  · split at h
    · simp at h
    · rename_i es heq
      simp at h
      subst h
      obtain ⟨hl, hok⟩ := tlenOk_VecSum ts _ _ es heq
      rw [Ser.lenOk_array, hok, hl]
      simp
  · split at h
    · simp at h
    · rename_i es heq
      simp at h
      subst h
      obtain ⟨hl, hok⟩ := tlenOk_VecProd ts _ _ es heq
      rw [Ser.lenOk_array, hok, hl]
      simp
  · simp at h; subst h
    exact lenOk_serArrayDefault _ (fun x => by rw [Ser.lenOk.eq_def]) _
  · simp at h; subst h
    exact lenOk_serArrayDefault _ (fun x => by rw [Ser.lenOk.eq_def]) _
  · simp at h; subst h; rw [Ser.lenOk.eq_def]
  · simp at h; subst h
    exact lenOk_serArrayDefault _ (fun x => by rw [Ser.lenOk.eq_def]) _
  · simp at h; subst h
    exact lenOk_serArrayDefault _ (fun x => by rw [Ser.lenOk.eq_def]) _
  · simp at h; subst h
    exact lenOk_serArrayDefault _ (fun x => by rw [Ser.lenOk.eq_def]) _
  · simp at h; subst h
    exact lenOk_serArrayDefault _ (fun x => by rw [Ser.lenOk.eq_def]) _
  · simp at h; subst h
    exact lenOk_serArrayDefault _ (fun x => by rw [Ser.lenOk.eq_def]) _
  · simp at h; subst h
    exact lenOk_serArrayDefault _ (fun x => by rw [Ser.lenOk.eq_def]) _
  · simp at h; subst h
    exact lenOk_serArrayDefault _ (fun x => by rw [Ser.lenOk.eq_def]) _
  · simp at h; subst h
    exact lenOk_serArrayDefault _ (fun x => by rw [Ser.lenOk.eq_def]) _
  · simp at h; subst h
    exact lenOk_serArrayDefault _ (fun x => by rw [Ser.lenOk.eq_def]) _
  · simp at h; subst h
    exact lenOk_serArrayDefault _ (fun x => by rw [Ser.lenOk.eq_def]) _
  · simp at h; subst h
    exact lenOk_serArrayDefault _ (fun x => by rw [Ser.lenOk.eq_def]) _
  · split at h
    · simp at h
    · rename_i es heq
      simp at h
      subst h
      obtain ⟨hl, hok⟩ := tlenOk_VecArr ts _ _ es heq
      rw [Ser.lenOk_array, hok, hl]
      simp
  · split at h
    · simp at h
    · rename_i es heq
      simp at h
      subst h
      obtain ⟨hl, hok⟩ := tlenOk_VecMap ts _ _ es heq
      rw [Ser.lenOk_array, hok, hl]
      simp
  · split at h
    · simp at h
      subst h
      rw [Ser.lenOk_array, Ser.lenOkList_nil]
      rfl
    · simp at h
termination_by sizeOf av

theorem tlenOk_VecSum (ts : Typespace) (sty : SumType) (l : List SumValue) :
    ∀ es, tserVecSumElems ts sty l = .ok es →
      es.length = l.length ∧ Ser.lenOkList es = true := by
  intro es h
  rw [tserVecSumElems.eq_def] at h
  split at h
  · simp at h
    subst h
    exact ⟨rfl, Ser.lenOkList_nil⟩
  · rename_i v vs
    split at h
    · simp at h
    · rename_i s heq
      split at h
      · simp at h
      · rename_i rest heqr
        simp at h
        subst h
        obtain ⟨hl, hok⟩ := tlenOk_VecSum ts sty vs rest heqr
        refine ⟨by simp [hl], ?_⟩
        rw [Ser.lenOkList_cons, hok, tlenOk_SV ts _ _ s heq]
        rfl
termination_by sizeOf l

theorem tlenOk_VecProd (ts : Typespace) (pty : ProductType)
    (l : List ProductValue) :
    ∀ es, tserVecProdElems ts pty l = .ok es →
      es.length = l.length ∧ Ser.lenOkList es = true := by
  intro es h
  rw [tserVecProdElems.eq_def] at h
  split at h
  · simp at h
    subst h
    exact ⟨rfl, Ser.lenOkList_nil⟩
  · rename_i v vs
    split at h
    · simp at h
    · rename_i s heq
      split at h
      · simp at h
      · rename_i rest heqr
        simp at h
        subst h
        obtain ⟨hl, hok⟩ := tlenOk_VecProd ts pty vs rest heqr
        refine ⟨by simp [hl], ?_⟩
        rw [Ser.lenOkList_cons, hok, tlenOk_PV ts _ _ s heq]
        rfl
termination_by sizeOf l

theorem tlenOk_VecArr (ts : Typespace) (aty : ArrayType)
    (l : List ArrayValue) :
    ∀ es, tserVecArrElems ts aty l = .ok es →
      es.length = l.length ∧ Ser.lenOkList es = true := by
  intro es h
  rw [tserVecArrElems.eq_def] at h
  split at h
  · simp at h
    subst h
    exact ⟨rfl, Ser.lenOkList_nil⟩
  · rename_i v vs
    split at h
    · simp at h
    · rename_i s heq
      split at h
      · simp at h
      · rename_i rest heqr
        simp at h
        subst h
        obtain ⟨hl, hok⟩ := tlenOk_VecArr ts aty vs rest heqr
        refine ⟨by simp [hl], ?_⟩
        rw [Ser.lenOkList_cons, hok, tlenOk_Arr ts _ _ s heq]
        rfl
termination_by sizeOf l

theorem tlenOk_VecMap (ts : Typespace) (mty : MapType) (l : List MapValue) :
    ∀ es, tserVecMapElems ts mty l = .ok es →
      es.length = l.length ∧ Ser.lenOkList es = true := by
  intro es h
  rw [tserVecMapElems.eq_def] at h
  split at h
  · simp at h
    subst h
    exact ⟨rfl, Ser.lenOkList_nil⟩
  · rename_i v vs
    split at h
    · simp at h
    · rename_i s heq
      split at h
      · simp at h
      · rename_i rest heqr
        simp at h
        subst h
        obtain ⟨hl, hok⟩ := tlenOk_VecMap ts mty vs rest heqr
        refine ⟨by simp [hl], ?_⟩
        rw [Ser.lenOkList_cons, hok, tlenOk_Map ts _ _ s heq]
        rfl
termination_by sizeOf l

theorem tlenOk_Map (ts : Typespace) (mty : MapType) (mv : MapValue) :
    ∀ s, tserMap ts mty mv = .ok s → s.lenOk = true := by
  intro s h
  rw [tserMap.eq_def] at h
  split at h
  split at h
  · simp at h
  · rename_i es heq
    simp at h
    subst h
    obtain ⟨hl, hok⟩ := tlenOk_MapEntries ts _ _ _ es heq
    rw [Ser.lenOk_map, hok, hl]
    simp
termination_by sizeOf mv

theorem tlenOk_MapEntries (ts : Typespace) (kty vty : AlgebraicType)
    (l : List (AlgebraicValue × AlgebraicValue)) :
    ∀ es, tserMapEntries ts kty vty l = .ok es →
      es.length = l.length ∧ Ser.lenOkPairs es = true := by
  intro es h
  rw [tserMapEntries.eq_def] at h
  split at h
  · simp at h
    subst h
    exact ⟨rfl, Ser.lenOkPairs_nil⟩
  · rename_i k v rest
    split at h
    · simp at h
    · rename_i ks heqk
      split at h
      · simp at h
      · rename_i vs heqv
        split at h
        · simp at h
        · rename_i rest2 heqr
          simp at h
          subst h
          obtain ⟨hl, hok⟩ := tlenOk_MapEntries ts kty vty rest rest2 heqr
          refine ⟨by simp [hl], ?_⟩
          rw [Ser.lenOkPairs_cons, hok, tlenOk_AV ts _ _ ks heqk,
            tlenOk_AV ts _ _ vs heqv]
          rfl
termination_by sizeOf l

end

/-- C9: every compound emission made by the core's serialization
algorithms honors the builder contract: whenever a
`serialize_seq_product(n)`, `serialize_named_product(n)`,
`serialize_array(n)` or `serialize_map(n)` builder is started, exactly
`n` element/entry calls are made before `end()` — recursively throughout
the emission, for both the untyped and the schema-paired algorithm. -/
theorem c9_builderCallCountContract :
    (∀ v : AlgebraicValue, (serializeAV v).lenOk = true) ∧
    (∀ (ts : Typespace) (ty : AlgebraicType) (v : AlgebraicValue) (s : Ser),
      tserAV ts ty v = .ok s → s.lenOk = true) :=
  ⟨lenOk_serializeAV, fun ts ty v s h => tlenOk_AV ts ty v s h⟩

/-- C9 witness: a concrete untyped product emission and a concrete
schema-paired array emission both satisfy the call-count contract. -/
theorem c9_builderCallCountContract_witness :
    (serializeAV (.Product (.mk [.Builtin (.Bool true)]))).lenOk = true ∧
    (Ser.array 2 [Ser.bool true, Ser.bool false]).lenOk = true :=
  ⟨c9_builderCallCountContract.1 _,
   c9_builderCallCountContract.2 [] (.Builtin (.Array (.mk (.Builtin .Bool))))
     (.Builtin (.Array (.Bool [true, false])))
     (.array 2 [.bool true, .bool false])
     (by simp [tserAV.eq_def, resolveRef, tserBV.eq_def, tserArr.eq_def,
               ArrayType.elem_ty, serArrayDefault])⟩
